import Mathlib

/-!
Verification of the mealapi recipe backend.

A shallow embedding of the core logic of the repository:
the shared string normalizer (`RecipeMapper.normalize_string`),
the ingredient-matching search (`RecipeRepository.get_by_ingredients`),
the rating aggregation in the recipe queries, the report status
state machine, recipe/comment validation and the comment/rating
upsert and delete operations.

Strings are embedded as lists of Unicode code points (`Str := List Nat`).
The Python standard library functions the code calls (`str.lower`,
`str.strip`, `unicodedata.normalize('NFKD', ...)`, category `Mn`) are
embedded as concrete code-point tables that agree with the real Unicode
data on the character universe exercised here: ASCII, the Polish
diacritic letters used throughout the application, the combining marks
U+0300..U+036F, and U+1D2C (MODIFIER LETTER CAPITAL A, compatibility
decomposition to U+0041).  Canonical reordering of combining marks is
omitted: every nonzero-combining-class character of this universe is of
category Mn and is removed by the final filter, so reordering cannot
change the result of `normalize_string`.
-/

set_option maxRecDepth 100000

namespace MealApi

/-- A Python string, as its sequence of Unicode code points. -/

abbrev Str := List Nat

/-- `str.lower` on one code point: ASCII A-Z, the Polish uppercase
diacritic letters; identity elsewhere (faithful on the modeled universe;
in particular U+1D2C has no lowercase mapping in UnicodeData). -/

def pyLower (n : Nat) : Nat :=
  if 65 ≤ n ∧ n ≤ 90 then n + 32
  else if n = 0x104 then 0x105   -- Ą → ą
  else if n = 0x106 then 0x107   -- Ć → ć
  else if n = 0x118 then 0x119   -- Ę → ę
  else if n = 0x141 then 0x142   -- Ł → ł
  else if n = 0x143 then 0x144   -- Ń → ń
  else if n = 0xD3 then 0xF3     -- Ó → ó
  else if n = 0x15A then 0x15B   -- Ś → ś
  else if n = 0x179 then 0x17A   -- Ź → ź
  else if n = 0x17B then 0x17C   -- Ż → ż
  else n

/-- NFKD decomposition of one code point, per UnicodeData: the Polish
diacritic letters decompose into base letter plus combining mark
(U+0328 ogonek, U+0301 acute, U+0307 dot above); Ł/ł do not decompose;
U+1D2C has compatibility decomposition `<super> 0041`; identity
elsewhere on the modeled universe. -/

def nfkdChar (n : Nat) : List Nat :=
  if n = 0x105 then [97, 0x328]
  else if n = 0x104 then [65, 0x328]
  else if n = 0x107 then [99, 0x301]
  else if n = 0x106 then [67, 0x301]
  else if n = 0x119 then [101, 0x328]
  else if n = 0x118 then [69, 0x328]
  else if n = 0x144 then [110, 0x301]
  else if n = 0x143 then [78, 0x301]
  else if n = 0xF3 then [111, 0x301]
  else if n = 0xD3 then [79, 0x301]
  else if n = 0x15B then [115, 0x301]
  else if n = 0x15A then [83, 0x301]
  else if n = 0x17A then [122, 0x301]
  else if n = 0x179 then [90, 0x301]
  else if n = 0x17C then [122, 0x307]
  else if n = 0x17B then [90, 0x307]
  else if n = 0x1D2C then [65]
  else [n]

/-- Unicode category `Mn` (combining marks) on the modeled universe:
the combining diacritical marks block U+0300..U+036F. -/

def isMn (n : Nat) : Bool := 0x300 ≤ n && n ≤ 0x36F

/-- `str.lower` on a whole string. -/

def pyLowerStr (s : Str) : Str := s.map pyLower

/-- `RecipeMapper.normalize_string`:
`''.join(c for c in unicodedata.normalize('NFKD', s.lower())
         if unicodedata.category(c) != 'Mn')`. -/

def normalize_string (s : Str) : Str :=
  ((s.map pyLower).flatMap nfkdChar).filter (fun c => !isMn c)

/-- Whitespace for Python `str.strip` (ASCII part, which covers the
modeled universe). -/

def isPySpace (n : Nat) : Bool := n == 32 || (9 ≤ n && n ≤ 13)

/-- Python `str.strip()`. -/

def pyStrip (s : Str) : Str :=
  ((s.dropWhile isPySpace).reverse.dropWhile isPySpace).reverse

/-- Convenience: the code points of a Lean string literal. -/

def strOf (s : String) : Str := s.data.map Char.toNat

/-- Python substring test `needle in hay` (contiguous substring;
the empty needle is a substring of everything). -/

def isSubstring : Str → Str → Bool
  | nd, [] => nd.isEmpty
  | nd, h :: t => nd.isPrefixOf (h :: t) || isSubstring nd t

/-! ### The normalizer acts code point by code point -/

/-- The contribution of one input code point to `normalize_string`. -/

def normChar (n : Nat) : List Nat :=
  (nfkdChar (pyLower n)).filter (fun c => !isMn c)

/-- The code points on which the modeled Unicode tables are exactly the
real ones and for which one pass of the normalizer is already stable:
ASCII, the Polish diacritic letters, and the combining marks block.
This is the alphabet produced by the application's validated inputs. -/

def goodChar (n : Nat) : Prop :=
  n < 128 ∨
  n ∈ [0x104, 0x105, 0x106, 0x107, 0x118, 0x119, 0x141, 0x142, 0x143,
       0x144, 0xD3, 0xF3, 0x15A, 0x15B, 0x179, 0x17A, 0x17B, 0x17C] ∨
  (0x300 ≤ n ∧ n ≤ 0x36F)

instance (n : Nat) : Decidable (goodChar n) := by
  unfold goodChar; infer_instance

/-! ### Data model

Rows of the `recipe`, `rating`, `comment`, `report` and `user` tables,
with UUIDs embedded as `Nat` and timestamps as abstract `Nat` instants. -/

/-- Error taxonomy of the service/router layers (HTTP status at the
boundary): `invalidArgument` for bad query parameters, `validationError`
for malformed entities, 404/403/401/400/500 conditions. -/

inductive ApiError
  | invalidArgument
  | validationError
  | notFound
  | forbidden
  | unauthorized
  | badRequest
  | serverError
  deriving DecidableEq, Repr

/-- A row of the `rating` table. -/

structure RatingRow where
  id : Nat
  value : Int
  recipe_id : Nat
  author : Nat
  deriving DecidableEq, Repr

/-- A row of the `comment` table. -/

structure CommentRow where
  id : Nat
  author : Nat
  recipe_id : Nat
  content : Str
  rating_id : Option Nat
  deriving DecidableEq, Repr

/-- A row of the `recipe` table. -/

structure RecipeRow where
  id : Nat
  name : Str
  description : Option Str := none
  instructions : Str
  category : Str
  ingredients : List Str
  preparation_time : Int
  servings : Option Int := none
  difficulty : Option Str := none
  author : Nat
  steps : List Str := []
  tags : List Str := []
  average_rating : ℚ := 0
  ai_detected : Option ℚ := none
  deriving DecidableEq, Repr

/-! ### Ingredient search (`RecipeRepository.get_by_ingredients`) -/

/-- The name portion of an `"amount:name"` ingredient entry:
`ing_str.split(':', 1)[1] if ':' in ing_str else ing_str`
— the substring after the first colon, the whole string without one. -/

def nameAfterColon (s : Str) : Str :=
  match s.dropWhile (fun c => c != 58) with
  | [] => s
  | _ :: rest => rest

/-- `RecipeMapper.normalize_string(x.strip().lower())`, applied by
`get_by_ingredients` both to caller ingredients and to recipe
ingredient names. -/

def normIngredientName (s : Str) : Str :=
  normalize_string (pyLowerStr (pyStrip s))

/-- The normalizable recipe ingredients: each entry's name portion,
normalized, keeping only the non-empty results. -/

def recipeNormIngredients (r : RecipeRow) : List Str :=
  (r.ingredients.map fun ingStr => normIngredientName (nameAfterColon ingStr)).filter
    (fun x => !x.isEmpty)

/-- A recipe ingredient is matched when any normalized caller
ingredient is a substring of it. -/

def ingredientMatched (query : List Str) (ing : Str) : Bool :=
  query.any fun searchIng => isSubstring searchIng ing

/-- match_fraction = (count matched) / (count normalizable). -/

def matchFraction (query : List Str) (r : RecipeRow) : ℚ :=
  (((recipeNormIngredients r).countP (ingredientMatched query) : ℚ)) /
    (((recipeNormIngredients r).length : ℚ))

/-- One element of the result list of `get_by_ingredients`: the recipe
row together with its `match_percentage`. -/

structure MatchedRecipe where
  recipe : RecipeRow
  match_percentage : ℚ
  deriving DecidableEq, Repr

/-- The body of the recipe loop of `get_by_ingredients`: skip a recipe
with no normalizable ingredient, otherwise count the matched
ingredients, compute the match percentage and append the recipe when
the percentage reaches the threshold. -/

def ingredientSearchStep (normalizedSearch : List Str) (min_match_percentage : ℚ)
    (acc : List MatchedRecipe) (recipe : RecipeRow) : List MatchedRecipe :=
  let recipeIngredients := recipeNormIngredients recipe
  if recipeIngredients.isEmpty then acc
  else
    let matchingCount := recipeIngredients.countP fun ing =>
      normalizedSearch.any fun searchIng => isSubstring searchIng ing
    let matchPercentage : ℚ := (matchingCount : ℚ) / (recipeIngredients.length : ℚ)
    if min_match_percentage ≤ matchPercentage then
      acc ++ [⟨recipe, matchPercentage⟩]
    else acc

/-- `RecipeRepository.get_by_ingredients`: reject an empty caller
ingredient list and a threshold outside `[0,1]`; otherwise normalize
the caller ingredients, walk the recipes accumulating the matches and
sort the accumulated list by `match_percentage`, descending (Python's
stable `list.sort` with `reverse=True`). -/

def get_by_ingredients (recipes : List RecipeRow) (ingredients : List Str)
    (min_match_percentage : ℚ) : Except ApiError (List MatchedRecipe) :=
  if ingredients.isEmpty then .error .invalidArgument
  else if ¬(0 ≤ min_match_percentage ∧ min_match_percentage ≤ 1) then
    .error .invalidArgument
  else
    let normalizedSearch := ingredients.map normIngredientName
    let matching := recipes.foldl (ingredientSearchStep normalizedSearch min_match_percentage) []
    .ok (matching.mergeSort fun a b => decide (b.match_percentage ≤ a.match_percentage))

/-- The recipes the claim says the search returns: at least one
normalizable ingredient, and match fraction at or above the
threshold. -/

def eligibleRecipe (query : List Str) (θ : ℚ) (r : RecipeRow) : Bool :=
  !(recipeNormIngredients r).isEmpty && decide (θ ≤ matchFraction query r)

/-- The spec's end-to-end example recipe: carbonara with ingredients
`["200g:pasta", "100g:pancetta"]`. -/

def carbonara : RecipeRow :=
  { id := 1, name := strOf "carbonara", instructions := strOf "mix",
    category := strOf "dinner",
    ingredients := [strOf "200g:pasta", strOf "100g:pancetta"],
    preparation_time := 30, author := 7 }

/-! ### Rating aggregation in the recipe queries -/

/-- User roles. -/

inductive UserRole
  | admin
  | user
  deriving DecidableEq, Repr

/-- A row of the `users` table. -/

structure UserRow where
  id : Nat
  role : UserRole
  deriving DecidableEq, Repr

/-- The data storage shared by the repositories: the table rows plus
the autoincrement counters for the serial primary keys. -/

structure Db where
  recipes : List RecipeRow := []
  ratings : List RatingRow := []
  comments : List CommentRow := []
  users : List UserRow := []
  next_recipe_id : Nat := 1
  next_rating_id : Nat := 1
  next_comment_id : Nat := 1
  deriving DecidableEq, Repr

/-- Python's `round` at an exact rational: round half to even. -/

def roundHalfEven (q : ℚ) : ℤ :=
  if q - ⌊q⌋ < 1/2 then ⌊q⌋
  else if (1 : ℚ)/2 < q - ⌊q⌋ then ⌊q⌋ + 1
  else if ⌊q⌋ % 2 = 0 then ⌊q⌋ else ⌊q⌋ + 1

/-- `round(q, 2)`. -/

def round2 (q : ℚ) : ℚ := (roundHalfEven (q * 100) : ℚ) / 100

/-- The ratings of one recipe. -/

def ratingsFor (db : Db) (rid : Nat) : List RatingRow :=
  db.ratings.filter (fun r => r.recipe_id == rid)

/-- The comments of one recipe. -/

def commentsFor (db : Db) (rid : Nat) : List CommentRow :=
  db.comments.filter (fun c => c.recipe_id == rid)

/-- A recipe as assembled by the query operations: the row with its
attached ratings and comments and the computed average rating. -/

structure RecipeOut where
  row : RecipeRow
  ratings : List RatingRow
  comments : List CommentRow
  average_rating : Option ℚ
  deriving DecidableEq, Repr

/-- The spec's Rating Aggregator: arithmetic mean of the values rounded
to 2 decimal places, null for the empty set. -/

def ratingAggregate (values : List Int) : Option ℚ :=
  if values.isEmpty then none
  else some (round2 ((values.sum : ℚ) / (values.length : ℚ)))

/-- `RecipeRepository.get_all_recipes`: every recipe with its ratings
and comments;
`round(sum(ratings_values)/len(ratings_values), 2) if ratings_values
else None`. -/

def get_all_recipes (db : Db) : List RecipeOut :=
  db.recipes.map fun recipe =>
    let ratings := ratingsFor db recipe.id
    let ratings_values : List Int := ratings.map (·.value)
    { row := recipe, ratings := ratings, comments := commentsFor db recipe.id,
      average_rating :=
        if ratings_values.isEmpty then none
        else some (round2 ((ratings_values.sum : ℚ) / (ratings_values.length : ℚ))) }

/-- `RecipeRepository.get_by_tag`: recipes whose tag array contains
`tag.lower()`, with
`sum(r['value'] for r in ratings) / len(ratings)` when ratings exist
— no rounding — and `0.0` when there are none. -/

def get_by_tag (db : Db) (tag : Str) : List RecipeOut :=
  (db.recipes.filter fun recipe => recipe.tags.contains (pyLowerStr tag)).map fun recipe =>
    let ratings := ratingsFor db recipe.id
    { row := recipe, ratings := ratings, comments := commentsFor db recipe.id,
      average_rating :=
        if !ratings.isEmpty then
          some ((((ratings.map (·.value) : List Int)).sum : ℚ) / (ratings.length : ℚ))
        else some 0 }

/-- The carbonara recipe tagged "quick". -/

def taggedCarbonara : RecipeRow := { carbonara with tags := [strOf "quick"] }

/-- A store holding the tagged recipe and no ratings. -/

def dbNoRatings : Db := { recipes := [taggedCarbonara] }

/-- A store holding the tagged recipe and three ratings 1, 1, 2. -/

def dbThreeRatings : Db :=
  { recipes := [taggedCarbonara],
    ratings := [⟨1, 1, 1, 5⟩, ⟨2, 1, 1, 6⟩, ⟨3, 2, 1, 7⟩],
    next_rating_id := 4 }

/-! ### Report status transitions -/

/-- `ReportStatus`. -/

inductive ReportStatus
  | pending
  | resolved
  | rejected
  deriving DecidableEq, Repr

/-- A row of the `report` table. -/

structure ReportRow where
  id : Nat
  reporter_id : Nat := 0
  recipe_id : Option Nat := none
  comment_id : Option Nat := none
  status : ReportStatus
  resolved_by : Option Nat := none
  resolution_note : Option Str := none
  resolved_at : Option Nat := none
  deriving DecidableEq, Repr

/-- `ReportRepository.get_by_id`. -/

def reportGetById (reports : List ReportRow) (report_id : Nat) : Option ReportRow :=
  reports.find? (fun r => r.id == report_id)

/-- `ReportRepository.update_status`: when the report exists, write the
new status unconditionally; set `resolved_at` to now for
resolved/rejected and clear it otherwise; overwrite `resolved_by` and
`resolution_note` only for resolved/rejected. Returns the re-fetched
report. -/

def repoUpdateStatus (reports : List ReportRow) (report_id : Nat)
    (status : ReportStatus) (resolved_by : Option Nat)
    (resolution_note : Option Str) (now : Nat) :
    Option ReportRow × List ReportRow :=
  match reportGetById reports report_id with
  | none => (none, reports)
  | some _ =>
    let isFinal := status = ReportStatus.resolved ∨ status = ReportStatus.rejected
    let reports' := reports.map fun r =>
      if r.id == report_id then
        { r with
          status := status,
          resolved_at := if isFinal then some now else none,
          resolved_by := if isFinal then resolved_by else r.resolved_by,
          resolution_note := if isFinal then resolution_note else r.resolution_note }
      else r
    (reportGetById reports' report_id, reports')

/-- `ReportService.update_report_status`: 404 when the report does not
exist; 400 when the report is already resolved and the new status is
not resolved; 400 when the new status is resolved and no resolver id is
supplied; otherwise delegate to the repository. -/

def serviceUpdateReportStatus (reports : List ReportRow) (report_id : Nat)
    (status : ReportStatus) (resolved_by : Option Nat)
    (resolution_note : Option Str) (now : Nat) :
    Except ApiError (ReportRow × List ReportRow) :=
  match reportGetById reports report_id with
  | none => .error .notFound
  | some existing =>
    if existing.status = ReportStatus.resolved ∧ status ≠ ReportStatus.resolved then
      .error .badRequest
    else if status = ReportStatus.resolved ∧ resolved_by = none then
      .error .badRequest
    else
      match repoUpdateStatus reports report_id status resolved_by resolution_note now with
      | (some r, reports') => .ok (r, reports')
      | (none, _) => .error .serverError

/-! ### Recipe validation and creation
(`RecipeMapper.validate`, `RecipeRepository.add_recipe`) -/

/-- Recipe input attributes (`RecipeIn`/`Recipe` domain model). -/

structure RecipeInput where
  name : Str
  description : Option Str := none
  instructions : Str
  category : Str
  ingredients : List Str
  preparation_time : Int
  servings : Option Int := none
  difficulty : Option Str := none
  steps : Option (List Str) := none
  tags : Option (List Str) := none
  deriving DecidableEq, Repr

/-- The difficulty values accepted by `validate_difficulty`. -/

def allowedDifficulties : List Str :=
  [strOf "easy", strOf "medium", strOf "hard",
   strOf "łatwy", strOf "średni", strOf "trudny"]

/-- The character class of the recipe-name regular expression
`^[a-zA-ZąćęłńóśźżĄĆĘŁŃÓŚŹŻ0-9\s\-\']+$`. -/

def isNameChar (n : Nat) : Bool :=
  (65 ≤ n && n ≤ 90) || (97 ≤ n && n ≤ 122) || (48 ≤ n && n ≤ 57) ||
    isPySpace n || n == 45 || n == 39 ||
    [0x105, 0x107, 0x119, 0x142, 0x144, 0xF3, 0x15B, 0x17A, 0x17C,
     0x104, 0x106, 0x118, 0x141, 0x143, 0xD3, 0x15A, 0x179, 0x17B].contains n

/-- `RecipeMapper.validate`, with its helper validators inlined in the
order the classmethod runs them; the first failing check raises. -/

def recipeValidate (r : RecipeInput) : Except ApiError Unit :=
  if r.preparation_time ≤ 0 then .error .validationError
  else if 1440 < r.preparation_time then .error .validationError
  else if r.servings.any (fun v => decide (v ≤ 0)) then .error .validationError
  else if r.servings.any (fun v => decide (100 < v)) then .error .validationError
  else if r.difficulty.any
      (fun d => !(allowedDifficulties.contains (pyLowerStr d))) then
    .error .validationError
  else if r.name.isEmpty || (pyStrip r.name).isEmpty then .error .validationError
  else if 200 < r.name.length then .error .validationError
  else if !(r.name.all isNameChar) then .error .validationError
  else if r.instructions.isEmpty || (pyStrip r.instructions).isEmpty then
    .error .validationError
  else if r.category.isEmpty || (pyStrip r.category).isEmpty then
    .error .validationError
  else if r.ingredients.isEmpty then .error .validationError
  else if r.tags.any (fun ts => decide (10 < ts.length)) then .error .validationError
  else if r.steps.any (fun ss => decide (20 < ss.length)) then .error .validationError
  else .ok ()

/-- `RecipeMapper.ingredients_to_strings`: lowercase each entry. -/

def ingredients_to_strings (ings : List Str) : List Str := ings.map pyLowerStr

/-- `RecipeRepository.add_recipe`: validate, then insert the row with
lowercased name/category, lowercased ingredient strings, the steps and
tags as given (defaulting to `[]`), a stored average rating of 0 and
the AI-detection score (an external collaborator, passed in here). -/

def add_recipe (db : Db) (r : RecipeInput) (author : Nat) (ai_score : ℚ) :
    Except ApiError (RecipeRow × Db) :=
  match recipeValidate r with
  | .error e => .error e
  | .ok _ =>
    let row : RecipeRow :=
      { id := db.next_recipe_id,
        name := pyLowerStr r.name,
        description := r.description,
        instructions := r.instructions,
        category := pyLowerStr r.category,
        ingredients := ingredients_to_strings r.ingredients,
        preparation_time := r.preparation_time,
        servings := r.servings,
        difficulty := r.difficulty,
        author := author,
        steps := r.steps.getD [],
        tags := r.tags.getD [],
        average_rating := 0,
        ai_detected := some ai_score }
    .ok (row, { db with
                recipes := db.recipes ++ [row],
                next_recipe_id := db.next_recipe_id + 1 })

/-- A valid recipe input whose single tag `"Ła"` is not in normalized
form. -/

def rinUnnormalizedTag : RecipeInput :=
  { name := strOf "pasta", instructions := strOf "mix",
    category := strOf "dinner", ingredients := [strOf "200g:pasta"],
    preparation_time := 30, tags := some [strOf "Ła"] }

/-- A valid recipe input with one well-formed tag. -/

def rinQuickTag : RecipeInput :=
  { name := strOf "pasta", instructions := strOf "mix",
    category := strOf "dinner", ingredients := [strOf "200g:pasta"],
    preparation_time := 30, tags := some [strOf "quick"] }

/-- The row `add_recipe` stores for `rinQuickTag`. -/

def quickTagRow : RecipeRow :=
  { id := 1, name := strOf "pasta", instructions := strOf "mix",
    category := strOf "dinner", ingredients := [strOf "200g:pasta"],
    preparation_time := 30, author := 7, tags := [strOf "quick"],
    average_rating := 0, ai_detected := some 0 }

/-- The store after adding `rinQuickTag` to the empty store. -/

def quickTagDb : Db := { recipes := [quickTagRow], next_recipe_id := 2 }

/-! ### Rating value validation
(`Rating.validate_rating`, `CommentValidator.validate_rating`) -/

/-- `Rating.validate_rating`: raise unless the value is in `[1,5]`,
otherwise return the model unchanged. -/

def rating_validate_value (v : Int) : Except ApiError Int :=
  if v < 1 ∨ 5 < v then .error .validationError else .ok v

/-- `CommentValidator.validate_rating`: `None` passes through; an
out-of-range value raises; an in-range value is returned unchanged. -/

def comment_validate_rating (v : Option Int) : Except ApiError (Option Int) :=
  match v with
  | none => .ok none
  | some x => if x < 1 ∨ 5 < x then .error .validationError else .ok (some x)

/-! ### Recipe update/delete authorization (recipe router) -/

/-- The router helper `is_admin`: the user exists and has the ADMIN
role. -/

def is_admin (users : List UserRow) (uid : Nat) : Bool :=
  match users.find? (fun u => u.id == uid) with
  | some u => decide (u.role = UserRole.admin)
  | none => false

/-- `RecipeRepository.update_recipe`: validate, overwrite the stored
row's attributes, and re-fetch it. -/

def repo_update_recipe (db : Db) (recipe_id : Nat) (r : RecipeInput) :
    Except ApiError (Option RecipeRow) × Db :=
  match recipeValidate r with
  | .error e => (.error e, db)
  | .ok _ =>
    let recipes' := db.recipes.map fun row =>
      if row.id == recipe_id then
        { row with
          name := pyLowerStr r.name, description := r.description,
          instructions := r.instructions, category := pyLowerStr r.category,
          ingredients := ingredients_to_strings r.ingredients,
          preparation_time := r.preparation_time, servings := r.servings,
          difficulty := r.difficulty, steps := r.steps.getD [],
          tags := r.tags.getD [] }
      else row
    (.ok (recipes'.find? (fun row => row.id == recipe_id)),
     { db with recipes := recipes' })

/-- `RecipeRepository.delete_recipe`: delete the row when it exists and
report whether it did. -/

def repo_delete_recipe (db : Db) (recipe_id : Nat) : Bool × Db :=
  match db.recipes.find? (fun row => row.id == recipe_id) with
  | some _ =>
    (true, { db with recipes := db.recipes.filter (fun row => !(row.id == recipe_id)) })
  | none => (false, db)

/-- The PUT `/recipes/{id}` handler: 404 when the recipe does not
exist; 403 when the authenticated user is neither the author nor an
admin — checked before any write; otherwise update. -/

def update_recipe_handler (db : Db) (uid : Nat) (recipe_id : Nat)
    (r : RecipeInput) : Except ApiError RecipeRow × Db :=
  match db.recipes.find? (fun row => row.id == recipe_id) with
  | none => (.error .notFound, db)
  | some recipe =>
    if recipe.author ≠ uid ∧ is_admin db.users uid = false then
      (.error .forbidden, db)
    else
      match repo_update_recipe db recipe_id r with
      | (.error e, db') => (.error e, db')
      | (.ok none, db') => (.error .badRequest, db')
      | (.ok (some updated), db') => (.ok updated, db')

/-- The DELETE `/recipes/{id}` handler: 404 when the recipe does not
exist; 403 when the authenticated user is neither the author nor an
admin — checked before any write; otherwise delete. -/

def delete_recipe_handler (db : Db) (uid : Nat) (recipe_id : Nat) :
    Except ApiError Unit × Db :=
  match db.recipes.find? (fun row => row.id == recipe_id) with
  | none => (.error .notFound, db)
  | some recipe =>
    if recipe.author ≠ uid ∧ is_admin db.users uid = false then
      (.error .forbidden, db)
    else
      match repo_delete_recipe db recipe_id with
      | (true, db') => (.ok (), db')
      | (false, db') => (.error .badRequest, db')

/-- A store with the carbonara recipe (author 7) and a non-admin
user 5. -/

def dbUserFive : Db :=
  { recipes := [carbonara], users := [⟨5, UserRole.user⟩] }

/-! ### Comment repository (`CommentRepository`) -/

/-- A comment submission: content, target recipe, and an optional
rating payload whose own `value` field is optional
(`comment.rating.value`). -/

structure CommentSubmit where
  recipe_id : Nat
  content : Str
  rating : Option (Option Int) := none
  deriving DecidableEq, Repr

/-- A comment as returned by `CommentRepository.get_by_id`: the comment
row joined with its rating (the join also requires the rating's recipe
and author to match the comment's, and the joined `rating_id` wins in
the produced record). -/

structure JoinedComment where
  id : Nat
  author : Nat
  recipe_id : Nat
  content : Str
  rating_id : Option Nat
  rating_value : Option Int
  deriving DecidableEq, Repr

/-- `CommentRepository.get_by_id`. -/

def comment_get_by_id (db : Db) (comment_id : Nat) : Option JoinedComment :=
  (db.comments.find? (fun c => c.id == comment_id)).map fun c =>
    let joined := c.rating_id.bind fun rid =>
      db.ratings.find? fun r =>
        r.id == rid && r.recipe_id == c.recipe_id && r.author == c.author
    { id := c.id, author := c.author, recipe_id := c.recipe_id,
      content := c.content, rating_id := joined.map (·.id),
      rating_value := joined.map (·.value) }

/-- `CommentRepository.add_comment`: when a rating value is submitted,
update the existing rating of the same author and recipe in place, or
insert a fresh one; then insert the comment pointing at that rating. -/

def add_comment (db : Db) (c : CommentSubmit) (author : Nat) :
    Db × Option JoinedComment :=
  let step : Option Nat × Db :=
    match c.rating with
    | some (some v) =>
      match db.ratings.find? (fun r => r.author == author && r.recipe_id == c.recipe_id) with
      | some existing =>
        (some existing.id,
         { db with ratings := db.ratings.map fun r =>
             if r.id == existing.id then { r with value := v } else r })
      | none =>
        (some db.next_rating_id,
         { db with
           ratings := db.ratings ++ [⟨db.next_rating_id, v, c.recipe_id, author⟩],
           next_rating_id := db.next_rating_id + 1 })
    | _ => (none, db)
  let rating_id := step.1
  let db1 := step.2
  let newComment : CommentRow :=
    ⟨db1.next_comment_id, author, c.recipe_id, c.content, rating_id⟩
  let db2 := { db1 with
               comments := db1.comments ++ [newComment],
               next_comment_id := db1.next_comment_id + 1 }
  (db2, comment_get_by_id db2 newComment.id)

/-- `CommentRepository.update_comment`: update the content; a submitted
rating value updates the joined rating in place when the comment has
one, and otherwise inserts a fresh rating — without any
(author, recipe) uniqueness check; `rating = None` deletes the joined
rating; a rating payload without a value leaves ratings alone. -/

def update_comment (db : Db) (comment_id : Nat) (content : Str)
    (rating : Option (Option Int)) : Db × Option JoinedComment :=
  match comment_get_by_id db comment_id with
  | none => (db, none)
  | some existing =>
    let db1 :=
      match rating with
      | some (some v) =>
        match existing.rating_id with
        | some rid =>
          { db with
            ratings := db.ratings.map fun r =>
              if r.id == rid then { r with value := v } else r,
            comments := db.comments.map fun cm =>
              if cm.id == comment_id then { cm with content := content } else cm }
        | none =>
          { db with
            ratings := db.ratings ++
              [⟨db.next_rating_id, v, existing.recipe_id, existing.author⟩],
            next_rating_id := db.next_rating_id + 1,
            comments := db.comments.map fun cm =>
              if cm.id == comment_id then
                { cm with content := content, rating_id := some db.next_rating_id }
              else cm }
      | none =>
        match existing.rating_id with
        | some rid =>
          { db with
            ratings := db.ratings.filter (fun r => !(r.id == rid)),
            comments := db.comments.map fun cm =>
              if cm.id == comment_id then
                { cm with content := content, rating_id := none }
              else cm }
        | none =>
          { db with comments := db.comments.map fun cm =>
              if cm.id == comment_id then { cm with content := content } else cm }
      | some none =>
        { db with comments := db.comments.map fun cm =>
            if cm.id == comment_id then { cm with content := content } else cm }
    (db1, comment_get_by_id db1 comment_id)

/-- `CommentRepository.delete_comment`: when the comment exists, delete
its joined rating (if any) and then the comment, returning true;
otherwise return false. -/

def delete_comment (db : Db) (comment_id : Nat) : Db × Bool :=
  match comment_get_by_id db comment_id with
  | none => (db, false)
  | some c =>
    let db1 :=
      match c.rating_id with
      | some rid =>
        { db with ratings := db.ratings.filter (fun r => !(r.id == rid)) }
      | none => db
    ({ db1 with comments := db1.comments.filter (fun cm => !(cm.id == comment_id)) },
     true)

/-- At most one rating row per (author, recipe) pair. -/

def RatingsUnique (db : Db) : Prop :=
  db.ratings.Pairwise fun a b => ¬(a.author = b.author ∧ a.recipe_id = b.recipe_id)

/-- The store after author 4 comments on recipe 1 with rating 5. -/

def dbOneRating : Db := (add_comment {} ⟨1, strOf "great", some (some 5)⟩ 4).1

/-- The comment/rating join of comment 1 in `dbOneRating`. -/

def jcOne : JoinedComment :=
  { id := 1, author := 4, recipe_id := 1, content := strOf "great",
    rating_id := some 1, rating_value := some 5 }

/-! ### Theorems -/

theorem normalize_string_eq_flatMap (s : Str) :
    normalize_string s = s.flatMap normChar := by
  induction s with
  | nil => rfl
  | cons c t ih =>
    simp only [normalize_string, List.map_cons, List.flatMap_cons,
      List.filter_append, normChar] at *
    exact congrArg _ ih

theorem normalize_string_append (s t : Str) :
    normalize_string (s ++ t) = normalize_string s ++ normalize_string t := by
  simp [normalize_string_eq_flatMap]

theorem normChar_stable_of_goodChar (n : Nat) (h : goodChar n) :
    (normChar n).flatMap normChar = normChar n := by
  rcases h with h | h | h
  · revert h
    have : ∀ m, m < 128 → (normChar m).flatMap normChar = normChar m := by decide
    exact this n
  · revert h
    have : ∀ m ∈ [0x104, 0x105, 0x106, 0x107, 0x118, 0x119, 0x141, 0x142,
        0x143, 0x144, 0xD3, 0xF3, 0x15A, 0x15B, 0x179, 0x17A, 0x17B, 0x17C],
        (normChar m).flatMap normChar = normChar m := by decide
    exact this n
  · obtain ⟨h1, h2⟩ := h
    have hlt : n < 0x370 := Nat.lt_succ_of_le h2
    revert h1
    have : ∀ m, m < 0x370 → 0x300 ≤ m → (normChar m).flatMap normChar = normChar m := by
      decide
    exact this n hlt

theorem flatMap_normChar_idem (s : Str) (h : ∀ n ∈ s, goodChar n) :
    (s.flatMap normChar).flatMap normChar = s.flatMap normChar := by
  induction s with
  | nil => rfl
  | cons c t ih =>
    have hc := h c (List.mem_cons_self c t)
    have ht := ih (fun n hn => h n (List.mem_cons_of_mem _ hn))
    simp only [List.flatMap_cons, List.flatMap_append, ht,
      normChar_stable_of_goodChar c hc]

/-- C9 counterexample: on the one-character string U+1D2C
(MODIFIER LETTER CAPITAL A) the normalizer is not idempotent.
`str.lower` leaves U+1D2C unchanged (it has no lowercase mapping),
NFKD then decomposes it to the capital letter `A`, which is not a
combining mark and survives; a second pass lowercases that `A` to `a`. -/
theorem normalize_string_not_idempotent :
    normalize_string (normalize_string [0x1D2C]) ≠ normalize_string [0x1D2C] := by
  decide

/-- C9 (amended): on every string over the application's working
alphabet — ASCII, the Polish diacritic letters, and combining marks —
the shared normalizer is idempotent:
`normalize_string (normalize_string s) = normalize_string s`. -/
theorem normalize_string_idempotent_on_goodChar (s : Str)
    (h : ∀ n ∈ s, goodChar n) :
    normalize_string (normalize_string s) = normalize_string s := by
  rw [normalize_string_eq_flatMap s, normalize_string_eq_flatMap]
  exact flatMap_normChar_idem s h

/-- Witness for the amended C9 theorem at the concrete Polish string
"Żółć". -/
theorem normalize_string_idempotent_witness :
    normalize_string (normalize_string (strOf "Żółć")) =
      normalize_string (strOf "Żółć") :=
  normalize_string_idempotent_on_goodChar (strOf "Żółć") (by decide)

theorem ingredientSearchStep_eq (q : List Str) (θ : ℚ) (acc : List MatchedRecipe)
    (r : RecipeRow) :
    ingredientSearchStep q θ acc r =
      if eligibleRecipe q θ r then acc ++ [⟨r, matchFraction q r⟩] else acc := by
  unfold ingredientSearchStep eligibleRecipe matchFraction ingredientMatched
  by_cases h : (recipeNormIngredients r).isEmpty
  · simp [h]
  · by_cases h2 : θ ≤ ((recipeNormIngredients r).countP
        (fun ing => q.any fun searchIng => isSubstring searchIng ing) : ℚ) /
        ((recipeNormIngredients r).length : ℚ) <;>
      simp [h, h2]

theorem foldl_ingredientSearchStep (q : List Str) (θ : ℚ) :
    ∀ (l : List RecipeRow) (acc : List MatchedRecipe),
      l.foldl (ingredientSearchStep q θ) acc =
        acc ++ (l.filter (eligibleRecipe q θ)).map (fun r => ⟨r, matchFraction q r⟩) := by
  intro l
  induction l with
  | nil => intro acc; simp
  | cons r t ih =>
    intro acc
    rw [List.foldl_cons, ingredientSearchStep_eq]
    by_cases h : eligibleRecipe q θ r <;> simp [h, ih]

/-- Claim C1: for a non-empty caller ingredient list and a threshold in
`[0,1]`, `get_by_ingredients` succeeds and returns exactly the recipes
with at least one normalizable ingredient whose match fraction reaches
the threshold (as a permutation of that filtered list, each paired with
its match fraction), sorted in descending order of match fraction. -/
theorem get_by_ingredients_correct (recipes : List RecipeRow) (ingredients : List Str)
    (θ : ℚ) (hne : ingredients ≠ []) (h0 : 0 ≤ θ) (h1 : θ ≤ 1) :
    ∃ l, get_by_ingredients recipes ingredients θ = .ok l ∧
      l.Perm (((recipes.filter (eligibleRecipe (ingredients.map normIngredientName) θ)).map
        (fun r => ⟨r, matchFraction (ingredients.map normIngredientName) r⟩))) ∧
      l.Pairwise (fun a b => b.match_percentage ≤ a.match_percentage) := by
  have hempty : ¬(ingredients.isEmpty = true) := by
    cases ingredients with
    | nil => exact absurd rfl hne
    | cons a t => simp
  have hcond : ¬¬(0 ≤ θ ∧ θ ≤ 1) := not_not_intro ⟨h0, h1⟩
  have hok : get_by_ingredients recipes ingredients θ =
      .ok ((((recipes.filter (eligibleRecipe (ingredients.map normIngredientName) θ)).map
        (fun r => (⟨r, matchFraction (ingredients.map normIngredientName) r⟩ :
          MatchedRecipe))).mergeSort
            (fun a b => decide (b.match_percentage ≤ a.match_percentage)))) := by
    unfold get_by_ingredients
    rw [if_neg hempty, if_neg hcond]
    simp only [foldl_ingredientSearchStep, List.nil_append]
  refine ⟨_, hok, List.mergeSort_perm _ _, ?_⟩
  have hs := @List.sorted_mergeSort MatchedRecipe
    (fun a b => decide (b.match_percentage ≤ a.match_percentage))
    (fun a b c hab hbc => by
      simp only [decide_eq_true_eq] at *
      exact le_trans hbc hab)
    (fun a b => by
      simp only [Bool.or_eq_true, decide_eq_true_eq]
      exact (le_total b.match_percentage a.match_percentage))
    ((recipes.filter (eligibleRecipe (ingredients.map normIngredientName) θ)).map
      (fun r => (⟨r, matchFraction (ingredients.map normIngredientName) r⟩ : MatchedRecipe)))
  exact hs.imp fun hab => of_decide_eq_true hab

/-- Witness for C10: deleting comment 1 of `dbOneRating` reports true
and removes rating 1. -/
theorem get_by_ingredients_correct_witness :
    ∃ l, get_by_ingredients [carbonara] [strOf "pasta"] (1/2) = .ok l ∧
      l.Perm ((([carbonara].filter
          (eligibleRecipe ([strOf "pasta"].map normIngredientName) (1/2))).map
        (fun r => ⟨r, matchFraction ([strOf "pasta"].map normIngredientName) r⟩))) ∧
      l.Pairwise (fun a b => b.match_percentage ≤ a.match_percentage) :=
  get_by_ingredients_correct _ _ _ (by simp) (by norm_num) (by norm_num)

/-- Claim C5: the ingredient search rejects an empty caller ingredient
list, and rejects a threshold outside `[0,1]`; in both cases the result
is the `invalidArgument` error and no recipe list is produced. -/
theorem get_by_ingredients_rejects (recipes : List RecipeRow) (ingredients : List Str)
    (θ : ℚ) :
    (ingredients = [] →
      get_by_ingredients recipes ingredients θ = .error .invalidArgument) ∧
    (θ < 0 ∨ 1 < θ →
      get_by_ingredients recipes ingredients θ = .error .invalidArgument) := by
  constructor
  · intro h
    subst h
    rfl
  · intro h
    unfold get_by_ingredients
    by_cases he : ingredients.isEmpty
    · rw [if_pos he]
    · rw [if_neg (by simp [he]), if_pos]
      intro ⟨ha, hb⟩
      rcases h with h | h
      · exact absurd ha (not_le.mpr h)
      · exact absurd hb (not_le.mpr h)

/-- Witness for C5: the empty list is rejected, and threshold 2 is
rejected. -/
theorem get_by_ingredients_rejects_witness :
    get_by_ingredients [] ([] : List Str) (1/2) = .error .invalidArgument ∧
    get_by_ingredients [] [strOf "egg"] 2 = .error .invalidArgument :=
  ⟨(get_by_ingredients_rejects [] [] (1/2)).1 rfl,
   (get_by_ingredients_rejects [] [strOf "egg"] 2).2 (Or.inr (by norm_num))⟩

/-- `get_all_recipes` conforms to the spec's aggregator. -/
theorem get_all_recipes_average_conforms (db : Db) (out : RecipeOut)
    (h : out ∈ get_all_recipes db) :
    out.average_rating = ratingAggregate (out.ratings.map (·.value)) := by
  unfold get_all_recipes at h
  obtain ⟨recipe, _, rfl⟩ := List.mem_map.mp h
  rfl

/-- Claim C2, evaluated at the failing input: for a recipe with no
ratings, `get_by_tag` reports average 0 where the spec's aggregator
(and `get_all_recipes`) reports null; for ratings 1, 1, 2 it reports
the unrounded mean 4/3 where the aggregator reports 1.33. -/
theorem get_by_tag_average_divergence :
    ((get_by_tag dbNoRatings (strOf "quick")).map (·.average_rating) = [some 0] ∧
      (get_all_recipes dbNoRatings).map (·.average_rating) = [none]) ∧
    ((get_by_tag dbThreeRatings (strOf "quick")).map (·.average_rating) = [some (4/3)] ∧
      (get_all_recipes dbThreeRatings).map (·.average_rating) = [some (round2 (4/3))] ∧
      round2 (4/3) = 133/100) := by
  refine ⟨⟨rfl, rfl⟩, rfl, rfl, ?_⟩
  norm_num [round2, roundHalfEven]

/-- C3 counterexample: a REJECTED report is not terminal — updating it
back to PENDING is accepted, and the stored status becomes pending. -/
theorem rejected_report_not_terminal :
    serviceUpdateReportStatus [{ id := 1, status := ReportStatus.rejected }]
      1 ReportStatus.pending (some 9) none 0 =
      .ok ({ id := 1, status := ReportStatus.pending },
           [{ id := 1, status := ReportStatus.pending }]) := by
  rfl

/-- Claim C3 (amended): for a report in RESOLVED status, a status
update away from RESOLVED (in particular to PENDING) is rejected with
400; for every existing report, an update to RESOLVED that supplies no
resolver id is rejected with 400.  RESOLVED is terminal; REJECTED is
not. -/
theorem update_report_status_guards (reports : List ReportRow) (report_id : Nat)
    (status : ReportStatus) (resolved_by : Option Nat)
    (resolution_note : Option Str) (now : Nat) (existing : ReportRow)
    (hfind : reportGetById reports report_id = some existing) :
    (existing.status = ReportStatus.resolved → status ≠ ReportStatus.resolved →
      serviceUpdateReportStatus reports report_id status resolved_by
        resolution_note now = .error .badRequest) ∧
    (status = ReportStatus.resolved → resolved_by = none →
      serviceUpdateReportStatus reports report_id status resolved_by
        resolution_note now = .error .badRequest) := by
  constructor
  · intro h1 h2
    unfold serviceUpdateReportStatus
    rw [hfind]
    simp [h1, h2]
  · intro h1 h2
    unfold serviceUpdateReportStatus
    rw [hfind]
    by_cases hres : existing.status = ReportStatus.resolved ∧
        status ≠ ReportStatus.resolved
    · simp [hres.1, hres.2]
    · simp only [h1, h2] at hres ⊢
      simp at hres
      simp [hres]

/-- Witness for the amended C3 theorem: a resolved report cannot be
moved back to pending, and an update to resolved without a resolver id
is rejected. -/
theorem update_report_status_guards_witness :
    (serviceUpdateReportStatus [{ id := 1, status := ReportStatus.resolved }]
      1 ReportStatus.pending (some 9) none 0 = .error .badRequest) ∧
    (serviceUpdateReportStatus [{ id := 2, status := ReportStatus.pending }]
      2 ReportStatus.resolved none none 0 = .error .badRequest) :=
  ⟨(update_report_status_guards [{ id := 1, status := ReportStatus.resolved }]
      1 ReportStatus.pending (some 9) none 0
      { id := 1, status := ReportStatus.resolved } rfl).1 rfl (by decide),
   (update_report_status_guards [{ id := 2, status := ReportStatus.pending }]
      2 ReportStatus.resolved none none 0
      { id := 2, status := ReportStatus.pending } rfl).2 rfl rfl⟩

theorem recipeValidate_ok_tags (r : RecipeInput)
    (h : recipeValidate r = .ok ()) :
    ∀ ts, r.tags = some ts → ts.length ≤ 10 := by
  intro ts hts
  by_contra hlen
  push_neg at hlen
  have h12 : Option.any (fun ts => decide (10 < ts.length)) (some ts) = true := by
    simp only [Option.any_some, decide_eq_true_eq]
    omega
  unfold recipeValidate at h
  rw [hts, h12] at h
  simp only [eq_self_iff_true, if_true, ite_self] at h
  exact Except.noConfusion h

/-- C4 counterexample: `add_recipe` accepts the tag `"Ła"` and stores
it verbatim, although it is not fixed by the shared normalizer
(`normalize_string "Ła" = "ła"`): stored tags are not normalized at
write time. -/
theorem add_recipe_stores_unnormalized_tag :
    (add_recipe {} rinUnnormalizedTag 7 0).map (fun p => p.1.tags) =
        .ok [strOf "Ła"] ∧
      normalize_string (strOf "Ła") ≠ strOf "Ła" :=
  ⟨rfl, by decide⟩

/-- Claim C4 (amended): a stored recipe's tag list is the caller's tag
list verbatim — no write-time normalization — and has at most 20
entries (validation in fact rejects more than 10). -/
theorem add_recipe_tags_verbatim (db : Db) (r : RecipeInput) (author : Nat)
    (ai : ℚ) (row : RecipeRow) (db' : Db)
    (h : add_recipe db r author ai = .ok (row, db')) :
    row.tags = r.tags.getD [] ∧ row.tags.length ≤ 20 := by
  unfold add_recipe at h
  cases hv : recipeValidate r with
  | error e => rw [hv] at h; exact Except.noConfusion h
  | ok u =>
    rw [hv] at h
    cases h
    refine ⟨rfl, ?_⟩
    have htags := recipeValidate_ok_tags r (by rw [hv])
    cases hts : r.tags with
    | none => simp [hts]
    | some ts =>
      have := htags ts hts
      simp only [hts, Option.getD_some]
      omega

/-- Witness for the amended C4 theorem at a concrete creation. -/
theorem add_recipe_tags_verbatim_witness :
    quickTagRow.tags = rinQuickTag.tags.getD [] ∧ quickTagRow.tags.length ≤ 20 :=
  add_recipe_tags_verbatim {} rinQuickTag 7 0 quickTagRow quickTagDb rfl

/-- Claim C6: both rating validators accept exactly the integers 1..5,
returning the value unchanged (never clamped — the only non-error
outcome is the input itself), and reject every other integer with a
validation error. -/
theorem rating_value_validation (v : Int) :
    (rating_validate_value v = .ok v ↔ 1 ≤ v ∧ v ≤ 5) ∧
    (rating_validate_value v = .error .validationError ↔ (v < 1 ∨ 5 < v)) ∧
    (comment_validate_rating (some v) = .ok (some v) ↔ 1 ≤ v ∧ v ≤ 5) ∧
    (comment_validate_rating (some v) = .error .validationError ↔ (v < 1 ∨ 5 < v)) := by
  have hc : comment_validate_rating (some v) =
      if v < 1 ∨ 5 < v then .error .validationError else .ok (some v) := rfl
  rw [hc]
  unfold rating_validate_value
  by_cases h : v < 1 ∨ 5 < v
  · rw [if_pos h, if_pos h]
    refine ⟨⟨fun hx => Except.noConfusion hx, fun hx => ?_⟩,
      ⟨fun _ => h, fun _ => rfl⟩,
      ⟨fun hx => Except.noConfusion hx, fun hx => ?_⟩,
      ⟨fun _ => h, fun _ => rfl⟩⟩ <;> (exfalso; omega)
  · rw [if_neg h, if_neg h]
    refine ⟨⟨fun _ => by omega, fun _ => rfl⟩,
      ⟨fun hx => Except.noConfusion hx, fun hx => absurd hx h⟩,
      ⟨fun _ => by omega, fun _ => rfl⟩,
      ⟨fun hx => Except.noConfusion hx, fun hx => absurd hx h⟩⟩

/-- Claim C7: for an existing recipe and an authenticated user who is
neither its author nor an admin, both the update and the delete
handler answer Forbidden and leave the store unchanged. -/
theorem non_author_non_admin_forbidden (db : Db) (uid recipe_id : Nat)
    (r : RecipeInput) (recipe : RecipeRow)
    (hfind : db.recipes.find? (fun row => row.id == recipe_id) = some recipe)
    (hauthor : recipe.author ≠ uid) (hadmin : is_admin db.users uid = false) :
    update_recipe_handler db uid recipe_id r = (.error .forbidden, db) ∧
    delete_recipe_handler db uid recipe_id = (.error .forbidden, db) := by
  unfold update_recipe_handler delete_recipe_handler
  rw [hfind]
  constructor <;> simp [hauthor, hadmin]

/-- Witness for C7: user 5 can neither update nor delete recipe 1
authored by user 7. -/
theorem non_author_non_admin_forbidden_witness :
    update_recipe_handler dbUserFive 5 1 rinQuickTag =
        (.error .forbidden, dbUserFive) ∧
      delete_recipe_handler dbUserFive 5 1 = (.error .forbidden, dbUserFive) :=
  non_author_non_admin_forbidden dbUserFive 5 1 rinQuickTag carbonara rfl
    (by decide) (by decide)

/-- C8 counterexample: author 4 rates recipe 1 through a first comment,
adds a second comment without a rating, then updates the second comment
with a rating — `update_comment` inserts a second rating row for the
same (author, recipe) pair, so the store ends up with two. -/
theorem duplicate_rating_via_update_comment :
    ((update_comment
        (add_comment (add_comment {} ⟨1, strOf "great", some (some 5)⟩ 4).1
          ⟨1, strOf "again", none⟩ 4).1
        2 (strOf "again") (some (some 3))).1.ratings.countP
      (fun r => r.author == 4 && r.recipe_id == 1)) = 2 := by
  decide

/-- Claim C8 (amended): `add_comment` preserves the at-most-one-rating
per (author, recipe) invariant — a submitted rating updates the
existing row of that author and recipe in place and never inserts a
duplicate — but `update_comment` of a comment with no joined rating
inserts a new rating row without that uniqueness check. -/
theorem add_comment_rating_upsert (db : Db) (c : CommentSubmit) (author : Nat)
    (h : RatingsUnique db) :
    RatingsUnique (add_comment db c author).1 ∧
    (∀ v, c.rating = some (some v) →
      ∀ existing,
        db.ratings.find? (fun r => r.author == author && r.recipe_id == c.recipe_id) =
          some existing →
        (add_comment db c author).1.ratings =
          db.ratings.map fun r =>
            if r.id == existing.id then { r with value := v } else r) := by
  unfold add_comment RatingsUnique
  cases hr : c.rating with
  | none =>
    exact ⟨h, fun v hv => by simp [hr] at hv⟩
  | some ro =>
    cases ro with
    | none =>
      exact ⟨h, fun v hv => by simp [hr] at hv⟩
    | some v =>
      cases hf : db.ratings.find? (fun r => r.author == author && r.recipe_id == c.recipe_id) with
      | some existing =>
        refine ⟨?_, fun w hw ex hex => ?_⟩
        · refine List.Pairwise.map _ (fun a b hab => ?_) h
          intro hcontra
          apply hab
          simp only [apply_ite RatingRow.author, apply_ite RatingRow.recipe_id] at hcontra
          simpa using hcontra
        · cases hw
          cases hex
          rfl
      | none =>
        refine ⟨?_, fun w hw ex hex => ?_⟩
        · rw [List.pairwise_append]
          refine ⟨h, List.pairwise_singleton _ _, ?_⟩
          intro a ha b hb
          simp only [List.mem_singleton] at hb
          subst hb
          have hnone := List.find?_eq_none.mp hf a ha
          simp only [Bool.and_eq_true, beq_iff_eq, not_and] at hnone
          intro hcontra
          exact hnone hcontra.1 hcontra.2
        · exact Option.noConfusion hex

/-- Witness for the amended C8 theorem: a second rating submission by
the same author for the same recipe keeps the invariant and rewrites
the existing row in place. -/
theorem add_comment_rating_upsert_witness :
    RatingsUnique (add_comment dbOneRating ⟨1, strOf "more", some (some 2)⟩ 4).1 ∧
    (∀ v, (some (some 2) : Option (Option Int)) = some (some v) →
      ∀ existing,
        dbOneRating.ratings.find?
            (fun r => r.author == 4 && r.recipe_id == 1) = some existing →
        (add_comment dbOneRating ⟨1, strOf "more", some (some 2)⟩ 4).1.ratings =
          dbOneRating.ratings.map fun r =>
            if r.id == existing.id then { r with value := v } else r) :=
  add_comment_rating_upsert dbOneRating ⟨1, strOf "more", some (some 2)⟩ 4
    (by unfold RatingsUnique; decide)

/-- Claim C10: `delete_comment` returns true exactly when the comment
exists; deleting a comment with a joined rating removes exactly that
rating row, deleting one without leaves the ratings unchanged; the
comment row itself is removed. -/
theorem delete_comment_spec (db : Db) (comment_id : Nat) :
    ((delete_comment db comment_id).2 = true ↔
      (db.comments.find? (fun c => c.id == comment_id)).isSome) ∧
    (∀ jc, comment_get_by_id db comment_id = some jc →
      (∀ rid, jc.rating_id = some rid →
        (delete_comment db comment_id).1.ratings =
          db.ratings.filter (fun r => !(r.id == rid))) ∧
      (jc.rating_id = none →
        (delete_comment db comment_id).1.ratings = db.ratings) ∧
      (delete_comment db comment_id).1.comments =
        db.comments.filter (fun cm => !(cm.id == comment_id))) := by
  cases hj : comment_get_by_id db comment_id with
  | none =>
    have hfind : db.comments.find? (fun c => c.id == comment_id) = none := by
      unfold comment_get_by_id at hj
      exact Option.map_eq_none'.mp hj
    have hred : delete_comment db comment_id = (db, false) := by
      unfold delete_comment
      rw [hj]
    constructor
    · rw [hred]
      simp [hfind]
    · intro jc hjc
      exact Option.noConfusion hjc
  | some c =>
    have hfind : (db.comments.find? (fun cm => cm.id == comment_id)).isSome := by
      unfold comment_get_by_id at hj
      cases hx : db.comments.find? (fun cm => cm.id == comment_id) with
      | none => rw [hx] at hj; exact Option.noConfusion hj
      | some cc => rfl
    have hred : delete_comment db comment_id =
        (let db1 :=
          match c.rating_id with
          | some rid =>
            { db with ratings := db.ratings.filter (fun r => !(r.id == rid)) }
          | none => db
         ({ db1 with
            comments := db1.comments.filter (fun cm => !(cm.id == comment_id)) },
          true)) := by
      unfold delete_comment
      rw [hj]
    constructor
    · rw [hred]
      cases hrx : c.rating_id <;> simpa [hrx] using hfind
    · intro jc hjc
      cases hjc
      refine ⟨fun rid hrid => ?_, fun hrid => ?_, ?_⟩
      · rw [hred, hrid]
      · rw [hred, hrid]
      · rw [hred]
        cases hrx : c.rating_id <;> rfl

theorem delete_comment_spec_witness :
    ((delete_comment dbOneRating 1).2 = true ↔
      (dbOneRating.comments.find? (fun c => c.id == 1)).isSome) ∧
    ((delete_comment dbOneRating 1).1.ratings =
      dbOneRating.ratings.filter (fun r => !(r.id == 1))) :=
  ⟨(delete_comment_spec dbOneRating 1).1,
   ((delete_comment_spec dbOneRating 1).2 jcOne rfl).1 1 rfl⟩

end MealApi
